import Mathlib

/-!
# lib-go-databox: token-mediated request pipeline and observation relay

A shallow embedding of `utils.go` (arbiter client, token cache, store request
executor) and `core-store-kv-bin.go` (binary key-value client) together with
the properties of the specification that were checked against it.

Conventions of the embedding

* A Go `string` is a Lean `String`, a `[]byte` is a list of byte values, a Go
  `error` is its message, and a possibly-nil error is an `Option String`.
* The process-wide state (the `tokenCache` map, the network traffic produced so
  far, the goroutines started so far) is passed explicitly as a `State`.
* Everything outside the repository (the Go standard library, the HTTP network,
  the zest client) is a field of `Env`.  Network answers are functions of the
  traffic produced so far and of the request, so they may differ from call to
  call.
* A Go run-time panic is the result `Res.panic`.
* Output on standard output (`fmt.Println`) is not recorded.
-/

deriving instance DecidableEq for Except

namespace LibDatabox

/-- A Go byte slice. -/
abbrev Bytes := List Nat

/-- Result of a call that either returns a value or panics. -/
inductive Res (α : Type) where
  | ret (a : α)
  | panic (msg : String)
deriving DecidableEq, Repr

/-- The fields of `net/url.URL` that the code reads. -/
structure URL where
  Scheme : String
  Host : String
  Path : String
deriving DecidableEq, Repr

/-- An `http.Request` as built by the code: method, URL, the two headers that
are set (`X-Api-Key`, `Content-Type`) and the body (`none` for a nil body). -/
structure HttpRequest where
  method : String
  url : String
  apiKey : String
  contentType : String
  body : Option String
deriving DecidableEq, Repr

/-- What `databoxClient.Do` followed by `ioutil.ReadAll(resp.Body)` gives:
`doErr e` when `Do` returns the error `e`, otherwise the status code, the bytes
read from the body and the error of `ReadAll`, if any. -/
inductive HttpResult where
  | doErr (e : String)
  | resp (status : Nat) (body : String) (readErr : Option String)
deriving DecidableEq, Repr

/-- Network traffic, in the order it is produced. -/
inductive Event where
  | arbiter (req : HttpRequest)
  | store (req : HttpRequest)
  | zestPost (token path : String) (payload : Bytes) (format : String)
  | zestGet (token path format : String)
  | zestObserve (token path format : String) (timeout : Nat)
deriving DecidableEq, Repr

/-- Modelled from the spec: the type `BinaryObserveResponse`, declared outside
`utils.go` and `core-store-kv-bin.go`.  It is the spec's update event
(timestamp in milliseconds, data-source identifier, key, payload bytes); the
field names are those assigned in `ObserveKey` and `Observe`. -/
structure BinaryObserveResponse where
  TimestampMS : Int
  DataSourceID : String
  Key : String
  Data : Bytes
deriving DecidableEq, Repr

/-- Program counter of the relay goroutine started by `ObserveKey`/`Observe`:
waiting in `range payloadChan`, blocked in `objectChan <- resp`, or finished
(after `close(objectChan)`). -/
inductive RelayPc where
  | recv
  | send (resp : BinaryObserveResponse)
  | done
deriving DecidableEq, Repr

/-- A relay goroutine together with its two channels.  `feed` holds the raw
messages the subscription will still deliver on `payloadChan`, in order, and
`feedCloses` tells whether `payloadChan` is closed after them.  `out` is what
the consumer has received from `objectChan` so far and `closed` whether
`objectChan` has been closed. -/
structure Relay where
  feed : List Bytes
  feedCloses : Bool
  pc : RelayPc
  out : List BinaryObserveResponse
  closed : Bool
deriving DecidableEq, Repr

/-- The process state. -/
structure State where
  tokenCache : String → Option String
  log : List Event
  relays : List Relay

/-- The environment of the library: configuration read at start-up, functions
of the Go standard library and of the zest client, and the network. -/
structure Env where
  /-- The variable `arbiterURL` (from `DATABOX_ARBITER_ENDPOINT`). -/
  arbiterURL : String
  /-- The variable `arbiterToken` set by `init`. -/
  arbiterToken : String
  /-- The function `strings.ToUpper`. -/
  ToUpper : String → String
  /-- The function `url.Parse`. -/
  urlParse : String → Except String URL
  /-- The function `net.SplitHostPort`: host, port and error. -/
  SplitHostPort : String → String × String × Option String
  /-- Whether `http.NewRequest` accepts the method and URL (it returns a nil
  request otherwise). -/
  newRequestOk : String → String → Bool
  /-- The answer of `databoxClient.Do` and `ioutil.ReadAll`, given the traffic
  so far and the request. -/
  httpDo : List Event → HttpRequest → HttpResult
  /-- The answer of `zestClient.Post`: the error, if any. -/
  zestPost : List Event → String → String → Bytes → String → Option String
  /-- The answer of `zestClient.Get`. -/
  zestGet : List Event → String → String → String → Except String Bytes
  /-- The answer of `zestClient.Observe`: an error, or the raw messages that
  `payloadChan` will deliver and whether it is closed after them. -/
  zestObserve : List Event → String → String → String → Nat → Except String (List Bytes × Bool)
  /-- The function `json.Unmarshal` into a `[]string`. -/
  jsonUnmarshal : Bytes → Except String (List String)
  /-- The function `parseRawObserveResponse`, defined outside `utils.go` and
  `core-store-kv-bin.go`. -/
  parseRawObserveResponse : Bytes → Int × String × String × Bytes

/-- The receiver of the key-value operations. -/
structure binaryKeyValueClient where
  zestEndpoint : String
  zestDealerEndpoint : String
deriving DecidableEq, Repr

/-! ## utils.go -/

/-- The request built in `makeArbiterRequest`: the JSON text naming target,
path and method, sent to `arbiterURL + path` with the arbiter token as API key. -/
def arbiterRequest (env : Env) (arbMethod path hostname endpoint method : String) : HttpRequest :=
  let jsonStr := "\x7b\"target\":\"" ++ hostname ++ "\",\"path\":\"" ++ endpoint
    ++ "\",\"method\":\"" ++ method ++ "\"\x7d"
  let url := env.arbiterURL ++ path
  ⟨arbMethod, url, env.arbiterToken, "application/json", some jsonStr⟩

/-- The function `makeArbiterRequest`: one HTTP request to the arbiter.  A nil
request from `http.NewRequest` makes `req.Header.Set` panic.  An error of `Do`
is returned as status 503 with the error text in place of the body. -/
def makeArbiterRequest (env : Env) (arbMethod path hostname endpoint method : String)
    (s : State) : Res (String × Nat) × State :=
  if env.newRequestOk arbMethod (env.arbiterURL ++ path) then
    let req := arbiterRequest env arbMethod path hostname endpoint method
    let s1 : State := { s with log := s.log ++ [Event.arbiter req] }
    match env.httpDo s.log req with
    | .doErr e => (.ret (e, 503), s1)
    | .resp status body _ => (.ret (body, status), s1)
  else
    (.panic "invalid memory address or nil pointer dereference", s)

/-- The function `requestToken`.  After a successful `url.Parse` the variable
`err` is nil, so the test `err != nil` that follows `net.SplitHostPort` never
fires and the error `err1` of the split is dropped. -/
def requestToken (env : Env) (href method : String) (s : State) :
    Res (String × Option String) × State :=
  match env.urlParse href with
  | .error e => (.ret (href, some e), s)
  | .ok u =>
    let err : Option String := none
    let host := (env.SplitHostPort u.Host).1
    let err1 := (env.SplitHostPort u.Host).2.2
    if err.isSome then
      (.ret (href, err1), s)
    else
      match makeArbiterRequest env "POST" "/token" host u.Path method s with
      | (.panic m, s1) => (.panic m, s1)
      | (.ret (token, status), s1) =>
        if status ≠ 200 then
          (.ret (token, some (toString status ++ ": " ++ token)), s1)
        else
          (.ret (token, err), s1)

/-- The key of the token cache computed at the start of `makeStoreRequest`. -/
def routeHash (env : Env) (href method : String) : String :=
  env.ToUpper href ++ env.ToUpper method

/-- The key of the token cache computed at the start of `makeStoreRequestPOST`. -/
def routeHashPOST (env : Env) (href : String) : String :=
  env.ToUpper href ++ "POST"

/-- Assignment `tokenCache[k] = v`. -/
def cachePut (c : String → Option String) (k v : String) : String → Option String :=
  fun x => if x = k then some v else c x

/-- Deletion `delete(tokenCache, k)`. -/
def cacheDelete (c : String → Option String) (k : String) : String → Option String :=
  fun x => if x = k then none else c x

/-- The part of `makeStoreRequest` after the token has been looked up: the
store request itself.  `Do` failing makes the function panic. -/
def storeRequest (env : Env) (href method routeHash : String) (s : State) :
    Res (String × Option String) × State :=
  if env.newRequestOk method href then
    let req : HttpRequest :=
      ⟨method, href, (s.tokenCache routeHash).getD "", "application/json", none⟩
    let s1 : State := { s with log := s.log ++ [Event.store req] }
    match env.httpDo s.log req with
    | .doErr e => (.panic e, s1)
    | .resp _ _ (some err1) => (.ret ("", some err1), s1)
    | .resp _ body none => (.ret (body, none), s1)
  else
    (.panic "invalid memory address or nil pointer dereference", s)

/-- The function `makeStoreRequest`. -/
def makeStoreRequest (env : Env) (href method : String) (s : State) :
    Res (String × Option String) × State :=
  let method := env.ToUpper method
  let routeHash := env.ToUpper href ++ method
  match s.tokenCache routeHash with
  | some _ => storeRequest env href method routeHash s
  | none =>
    match requestToken env href method s with
    | (.panic m, s1) => (.panic m, s1)
    | (.ret (_, some err), s1) => (.ret ("", some err), s1)
    | (.ret (newToken, none), s1) =>
      storeRequest env href method routeHash
        { s1 with tokenCache := cachePut s1.tokenCache routeHash newToken }

/-- The part of `makeStoreRequestPOST` after the token has been looked up.
Here an error of `Do` is returned. -/
def storeRequestPOST (env : Env) (href data routeHash : String) (s : State) :
    Res (String × Option String) × State :=
  if env.newRequestOk "POST" href then
    let req : HttpRequest :=
      ⟨"POST", href, (s.tokenCache routeHash).getD "", "application/json", some data⟩
    let s1 : State := { s with log := s.log ++ [Event.store req] }
    match env.httpDo s.log req with
    | .doErr e => (.ret ("", some e), s1)
    | .resp _ _ (some err1) => (.ret ("", some err1), s1)
    | .resp _ body none => (.ret (body, none), s1)
  else
    (.panic "invalid memory address or nil pointer dereference", s)

/-- The function `makeStoreRequestPOST`. -/
def makeStoreRequestPOST (env : Env) (href data : String) (s : State) :
    Res (String × Option String) × State :=
  let method := "POST"
  let routeHash := env.ToUpper href ++ method
  match s.tokenCache routeHash with
  | some _ => storeRequestPOST env href data routeHash s
  | none =>
    match requestToken env href method s with
    | (.panic m, s1) => (.panic m, s1)
    | (.ret (_, some err), s1) => (.ret ("", some err), s1)
    | (.ret (newToken, none), s1) =>
      storeRequestPOST env href data routeHash
        { s1 with tokenCache := cachePut s1.tokenCache routeHash newToken }

/-- Modelled from the spec: `invalidateCache`, which the key-value operations
call and which is defined outside `utils.go` and `core-store-kv-bin.go`.  The
spec's `Invalidate(routeKey)` "removes the stored token unconditionally", the
route key being the one of the (path, method) pair, which `makeStoreRequest`
computes as `ToUpper(href) + ToUpper(method)`. -/
def invalidateCache (env : Env) (href method : String) (s : State) : State :=
  { s with tokenCache := cacheDelete s.tokenCache (routeHash env href method) }

/-! ## core-store-kv-bin.go -/

/-- The event built from a raw message in the body of the relay loop. -/
def observeResponse (env : Env) (data : Bytes) : BinaryObserveResponse :=
  let (ts, dsid, key, payload) := env.parseRawObserveResponse data
  { TimestampMS := ts, DataSourceID := dsid, Key := key, Data := payload }

/-- The relay goroutine just after `go func() ...`, on an unbuffered
`objectChan` made by `make(chan BinaryObserveResponse)`. -/
def Relay.start (feed : List Bytes) (feedCloses : Bool) : Relay :=
  { feed := feed, feedCloses := feedCloses, pc := .recv, out := [], closed := false }

/-- One step of the relay goroutine (the same function literal in `ObserveKey`
and in `Observe`); `none` when it cannot move.

* in `for data := range payloadChan`: the next raw message is taken and turned
  into a response; when the feed is exhausted and closed the loop ends and
  `close(objectChan)` runs; when it is exhausted and open the goroutine waits;
* in `objectChan <- resp`: the consumer receives the response;
* after `close(objectChan)` the goroutine has returned.

A step stands for the goroutine moving on; the time it spends blocked on either
channel before the step is not represented, so a statement about every number
of steps is a statement about every moment of every execution. -/
def Relay.step (env : Env) (r : Relay) : Option Relay :=
  match r.pc with
  | .recv =>
    match r.feed with
    | data :: rest => some { r with feed := rest, pc := .send (observeResponse env data) }
    | [] => if r.feedCloses then some { r with pc := .done, closed := true } else none
  | .send resp => some { r with pc := .recv, out := r.out ++ [resp] }
  | .done => none

/-- At most `n` steps of the relay goroutine. -/
def Relay.run (env : Env) : Nat → Relay → Relay
  | 0, r => r
  | n + 1, r =>
    match r.step env with
    | some r1 => Relay.run env n r1
    | none => r

namespace binaryKeyValueClient

/-- The method `Write`. -/
def Write (env : Env) (kvc : binaryKeyValueClient) (dataSourceID key : String) (payload : Bytes)
    (s : State) : Res (Option String) × State :=
  let path := "/kv/" ++ dataSourceID ++ "/" ++ key
  match requestToken env (kvc.zestEndpoint ++ path) "POST" s with
  | (.panic m, s1) => (.panic m, s1)
  | (.ret (_, some err), s1) => (.ret (some err), s1)
  | (.ret (token, none), s1) =>
    let s2 : State := { s1 with log := s1.log ++ [Event.zestPost token path payload "BINARY"] }
    match env.zestPost s1.log token path payload "BINARY" with
    | some err =>
      (.ret (some ("Error writing data: " ++ err)),
        invalidateCache env (kvc.zestEndpoint ++ path) "POST" s2)
    | none => (.ret none, s2)

/-- The method `Read`. -/
def Read (env : Env) (kvc : binaryKeyValueClient) (dataSourceID key : String)
    (s : State) : Res (Bytes × Option String) × State :=
  let path := "/kv/" ++ dataSourceID ++ "/" ++ key
  match requestToken env (kvc.zestEndpoint ++ path) "POST" s with
  | (.panic m, s1) => (.panic m, s1)
  | (.ret (_, some err), s1) => (.ret ([], some err), s1)
  | (.ret (token, none), s1) =>
    let s2 : State := { s1 with log := s1.log ++ [Event.zestGet token path "BINARY"] }
    match env.zestGet s1.log token path "BINARY" with
    | .error getErr =>
      (.ret ([], some ("Error reading data: " ++ getErr)),
        invalidateCache env (kvc.zestEndpoint ++ path) "POST" s2)
    | .ok data => (.ret (data, none), s2)

/-- The method `ListKeys`.  The token is requested for `GET`; on a failed
`Get` the cache entry of `POST` is invalidated. -/
def ListKeys (env : Env) (kvc : binaryKeyValueClient) (dataSourceID : String)
    (s : State) : Res (List String × Option String) × State :=
  let path := "/kv/" ++ dataSourceID ++ "/keys"
  match requestToken env (kvc.zestEndpoint ++ path) "GET" s with
  | (.panic m, s1) => (.panic m, s1)
  | (.ret (_, some err), s1) => (.ret ([], some err), s1)
  | (.ret (token, none), s1) =>
    let s2 : State := { s1 with log := s1.log ++ [Event.zestGet token path "JSON"] }
    match env.zestGet s1.log token path "JSON" with
    | .error getErr =>
      (.ret ([], some ("Error reading data: " ++ getErr)),
        invalidateCache env (kvc.zestEndpoint ++ path) "POST" s2)
    | .ok data =>
      match env.jsonUnmarshal data with
      | .error err => (.ret ([], some ("Error decoding data: " ++ err)), s2)
      | .ok keysArray => (.ret (keysArray, none), s2)

/-- The common body of `ObserveKey` and `Observe` once `path` and the format are
fixed.  The channel returned is identified by the position of its relay
goroutine in `State.relays`; `none` is the nil channel. -/
def observePath (env : Env) (kvc : binaryKeyValueClient) (path format : String)
    (s : State) : Res (Option Nat × Option String) × State :=
  match requestToken env (kvc.zestEndpoint ++ path) "GET" s with
  | (.panic m, s1) => (.panic m, s1)
  | (.ret (_, some err), s1) => (.ret (none, some err), s1)
  | (.ret (token, none), s1) =>
    let s2 : State := { s1 with log := s1.log ++ [Event.zestObserve token path format 0] }
    match env.zestObserve s1.log token path format 0 with
    | .error getErr =>
      (.ret (none, some ("Error observing: " ++ getErr)),
        invalidateCache env (kvc.zestEndpoint ++ path) "GET" s2)
    | .ok (feed, feedCloses) =>
      (.ret (some s2.relays.length, none),
        { s2 with relays := s2.relays ++ [Relay.start feed feedCloses] })

/-- The method `ObserveKey`. -/
def ObserveKey (env : Env) (kvc : binaryKeyValueClient) (dataSourceID key : String)
    (s : State) : Res (Option Nat × Option String) × State :=
  observePath env kvc ("/kv/" ++ dataSourceID ++ "/" ++ key) "BINARY" s

/-- The method `Observe`. -/
def Observe (env : Env) (kvc : binaryKeyValueClient) (dataSourceID : String)
    (s : State) : Res (Option Nat × Option String) × State :=
  observePath env kvc ("/kv/" ++ dataSourceID ++ "/*") "JSON" s

/-- The method `RegisterDatasource`.  The type `DataSourceMetadata` and the
function `dataSourceMetadataToHypercat` are declared outside `utils.go` and
`core-store-kv-bin.go`; they are the parameters `M` and
`dataSourceMetadataToHypercat`.  The error of the conversion is not looked at. -/
def RegisterDatasource {M : Type} (env : Env)
    (dataSourceMetadataToHypercat : M → String → Bytes × Option String)
    (kvc : binaryKeyValueClient) (metadata : M)
    (s : State) : Res (Option String) × State :=
  let path := "/cat"
  match requestToken env (kvc.zestEndpoint ++ path) "POST" s with
  | (.panic m, s1) => (.panic m, s1)
  | (.ret (_, some err), s1) => (.ret (some ("Error getting token: " ++ err)), s1)
  | (.ret (token, none), s1) =>
    let (hypercatJSON, _) := dataSourceMetadataToHypercat metadata (kvc.zestEndpoint ++ "/kv/")
    let s2 : State := { s1 with log := s1.log ++ [Event.zestPost token path hypercatJSON "JSON"] }
    match env.zestPost s1.log token path hypercatJSON "JSON" with
    | some writeErr =>
      (.ret (some ("Error writing: " ++ writeErr)),
        invalidateCache env (kvc.zestEndpoint ++ path) "POST" s2)
    | none => (.ret none, s2)

end binaryKeyValueClient

/-! ## Assumptions on the environment used by the round-trip property -/

/-- The payload of the event when it is a post on `path`. -/
def postedOn (path : String) : Event → Option Bytes
  | .zestPost _ p payload _ => if p = path then some payload else none
  | _ => none

/-- The last payload posted on `path` in the traffic, if any. -/
def lastPosted (path : String) : List Event → Option Bytes
  | [] => none
  | ev :: rest =>
    match lastPosted path rest with
    | some b => some b
    | none => postedOn path ev

/-- An arbiter that grants tokens: the request to `arbiterURL + "/token"` can be
built and is always answered with status 200. -/
def ArbiterGrants (env : Env) : Prop :=
  env.newRequestOk "POST" (env.arbiterURL ++ "/token") = true ∧
  ∀ log req, req.url = env.arbiterURL ++ "/token" →
    ∃ tok rerr, env.httpDo log req = .resp 200 tok rerr

/-- A mock store that accepts every post, keeps the last body posted on each
path and returns it on a get of that path. -/
def KeepsLastPosted (env : Env) : Prop :=
  (∀ log tok path payload format, env.zestPost log tok path payload format = none) ∧
  (∀ log tok path format b, lastPosted path log = some b →
    env.zestGet log tok path format = .ok b)

/-! ## A concrete environment

The theorems below hold for every environment.  The concrete one defined here
serves to run the code on examples. -/

namespace Mock

/-- Upper-casing of the letters `a`..`z`; agrees with `strings.ToUpper` on
ASCII text. -/
def upperChar (c : Char) : Char :=
  if 97 ≤ c.toNat ∧ c.toNat ≤ 122 then Char.ofNat (c.toNat - 32) else c

/-- Upper-casing of a string, letter by letter. -/
def toUpper (s : String) : String := ⟨s.data.map upperChar⟩

/-- The bytes of an ASCII string. -/
def bytes (s : String) : Bytes := s.data.map Char.toNat

/-- Whether the character is a hexadecimal digit. -/
def isHex (c : Char) : Bool :=
  (48 ≤ c.toNat && c.toNat ≤ 57) || (65 ≤ c.toNat && c.toNat ≤ 70)
    || (97 ≤ c.toNat && c.toNat ≤ 102)

/-- The first `%` that is not followed by two hexadecimal digits, with the (at
most two) characters after it. -/
def badEscape : List Char → Option (List Char)
  | [] => none
  | c :: rest =>
    if c = '%' then
      match rest with
      | a :: b :: rest2 =>
        if isHex a && isHex b then badEscape rest2 else some [c, a, b]
      | _ => some (c :: rest)
    else badEscape rest

/-- Splits at the first occurrence of `://`. -/
def splitScheme : List Char → Option (List Char × List Char)
  | [] => none
  | c :: rest =>
    match c, rest with
    | ':', '/' :: '/' :: rest2 => some ([], rest2)
    | _, _ =>
      match splitScheme rest with
      | some (a, b) => some (c :: a, b)
      | none => none

/-- Splits before the first `/`. -/
def splitPath : List Char → List Char × List Char
  | [] => ([], [])
  | c :: rest =>
    if c = '/' then ([], c :: rest)
    else
      let (a, b) := splitPath rest
      (c :: a, b)

/-- A small model of `url.Parse` for hrefs of the form `scheme://host/path`
and for plain paths: an invalid percent escape is rejected, as `url.Parse`
does; valid escapes are not decoded (no example below contains one). -/
def urlParse (href : String) : Except String URL :=
  match badEscape href.data with
  | some esc =>
    .error ("parse \"" ++ href ++ "\": invalid URL escape \"" ++ String.mk esc ++ "\"")
  | none =>
    match splitScheme href.data with
    | some (scheme, rest) =>
      let (host, path) := splitPath rest
      .ok ⟨String.mk scheme, String.mk host, String.mk path⟩
    | none => .ok ⟨"", "", href⟩

/-- Splits at the last `:`; `none` when there is no colon. -/
def splitLastColon : List Char → Option (List Char × List Char)
  | [] => none
  | c :: rest =>
    match splitLastColon rest with
    | some (a, b) => some (c :: a, b)
    | none => if c = ':' then some ([], rest) else none

/-- A small model of `net.SplitHostPort` for `host:port` without brackets. -/
def splitHostPort (hostport : String) : String × String × Option String :=
  match splitLastColon hostport.data with
  | some (h, p) => (String.mk h, String.mk p, none)
  | none => ("", "", some ("address " ++ hostport ++ ": missing port in address"))

/-- The answers of `json.Unmarshal` on the two bodies of the spec's example;
every other body is treated as empty input. -/
def jsonUnmarshal (data : Bytes) : Except String (List String) :=
  if data = bytes "[\"a\",\"b\",\"c\"]" then .ok ["a", "b", "c"]
  else if data = bytes "not-json" then
    .error "invalid character 'o' in literal null (expecting 'u')"
  else .error "unexpected end of JSON input"

/-- A stand-in for `parseRawObserveResponse`: the first byte is the timestamp,
the rest the payload. -/
def parseRawObserveResponse (data : Bytes) : Int × String × String × Bytes :=
  (Int.ofNat (data.headD 0), "ds1", "temp", data.tail)

/-- An environment in which the arbiter answers every request with status 200
and the token `"secret"`, the store over HTTP answers `"ok"`, the zest store
keeps the last body posted on each path and returns it on a get of that path,
and a subscription delivers nothing and closes. -/
def env : Env where
  arbiterURL := "https://arbiter:8080"
  arbiterToken := "YXJi"
  ToUpper := toUpper
  urlParse := urlParse
  SplitHostPort := splitHostPort
  newRequestOk := fun _ _ => true
  httpDo := fun _ req =>
    if req.url = "https://arbiter:8080/token" then .resp 200 "secret" none
    else .resp 200 "ok" none
  zestPost := fun _ _ _ _ _ => none
  zestGet := fun log _ path _ =>
    match LibDatabox.lastPosted path log with
    | some b => .ok b
    | none => .error "not found"
  zestObserve := fun _ _ _ _ _ => .ok ([], true)
  jsonUnmarshal := jsonUnmarshal
  parseRawObserveResponse := parseRawObserveResponse

/-- The environment `env` with an arbiter that refuses every request with
status 401. -/
def envDeny : Env :=
  { env with httpDo := fun _ _ => .resp 401 "denied" none }

/-- The environment `env` with a zest store whose every call fails with
`connection refused`. -/
def envDown : Env :=
  { env with
    zestPost := fun _ _ _ _ _ => some "connection refused"
    zestGet := fun _ _ _ _ => .error "connection refused"
    zestObserve := fun _ _ _ _ _ => .error "connection refused" }

/-- The environment `env` with a zest store that answers every get with the
body `["a","b","c"]`. -/
def envKeys : Env :=
  { env with zestGet := fun _ _ _ _ => .ok (bytes "[\"a\",\"b\",\"c\"]") }

/-- The environment `env` with a zest store that answers every get with the
body `not-json`. -/
def envBadKeys : Env :=
  { env with zestGet := fun _ _ _ _ => .ok (bytes "not-json") }

/-- The environment `env` with a subscription that delivers three raw messages
and then closes. -/
def envFeed : Env :=
  { env with zestObserve := fun _ _ _ _ _ => .ok ([[1, 65], [2, 66], [3, 67]], true) }

/-- The client of the examples. -/
def kvc : binaryKeyValueClient := ⟨"tcp://store:5555", "tcp://store:5556"⟩

/-- The state of a process that has just started. -/
def s0 : State := ⟨fun _ => none, [], []⟩

/-- A state whose token cache holds the token `"tG"` for `GET` and the token
`"tP"` for `POST` on the href, as `makeStoreRequest` and `makeStoreRequestPOST`
leave them there. -/
def sCached (href : String) : State :=
  ⟨cachePut (cachePut (fun _ => none) (routeHash env href "GET") "tG")
      (routeHash env href "POST") "tP", [], []⟩

end Mock

/-! ## Auxiliary definitions -/

/-- Whether the event is a request to the arbiter. -/
def Event.isArbiter : Event → Bool
  | .arbiter _ => true
  | _ => false

/-- Number of requests sent to the arbiter in the traffic. -/
def arbiterCalls (log : List Event) : Nat := (log.filter Event.isArbiter).length

/-- The traffic to the store: everything that is not a request to the arbiter. -/
def storeTraffic (log : List Event) : List Event := log.filter (fun ev => !ev.isArbiter)

/-- The request that `requestToken` sends to the arbiter for a parsed href. -/
def tokenRequest (env : Env) (u : URL) (method : String) : HttpRequest :=
  arbiterRequest env "POST" "/token" (env.SplitHostPort u.Host).1 u.Path method

/-- The pair (text, status) that `makeArbiterRequest` returns for an answer of
the network. -/
def arbiterAnswer : HttpResult → String × Nat
  | .doErr e => (e, 503)
  | .resp status body _ => (body, status)

/-- The store request that `makeStoreRequest` sends (none when
`http.NewRequest` rejects the method or the href). -/
def sentStoreRequest (env : Env) (href method token : String) : List Event :=
  if env.newRequestOk method href then
    [Event.store ⟨method, href, token, "application/json", none⟩]
  else []

/-- The store request that `makeStoreRequestPOST` sends. -/
def sentStoreRequestPOST (env : Env) (href data token : String) : List Event :=
  if env.newRequestOk "POST" href then
    [Event.store ⟨"POST", href, token, "application/json", some data⟩]
  else []

/-- The second state differs from the first at most by requests to the
arbiter: same token cache, same traffic to the store, same goroutines. -/
def Untouched (s s1 : State) : Prop :=
  s1.tokenCache = s.tokenCache ∧ storeTraffic s1.log = storeTraffic s.log ∧ s1.relays = s.relays

/-! ## Lemmas -/

theorem str_append_left_cancel (a b c : String) (h : a ++ b = a ++ c) : b = c := by
  have h1 : (a ++ b).data = (a ++ c).data := by rw [h]
  rw [String.data_append, String.data_append] at h1
  exact String.ext (List.append_cancel_left h1)

theorem requestToken_parsed (env : Env) (href method : String) (s : State) (u : URL)
    (body : String) (status : Nat)
    (hparse : env.urlParse href = .ok u)
    (hcfg : env.newRequestOk "POST" (env.arbiterURL ++ "/token") = true)
    (hans : arbiterAnswer (env.httpDo s.log (tokenRequest env u method)) = (body, status)) :
    requestToken env href method s =
      (.ret (body, if status ≠ 200 then some (toString status ++ ": " ++ body) else none),
        { s with log := s.log ++ [Event.arbiter (tokenRequest env u method)] }) := by
  unfold requestToken makeArbiterRequest
  unfold tokenRequest at hans
  cases hr : env.httpDo s.log
      (arbiterRequest env "POST" "/token" (env.SplitHostPort u.Host).1 u.Path method) with
  | doErr e =>
    simp only [hr, arbiterAnswer, Prod.mk.injEq] at hans
    obtain ⟨h1, h2⟩ := hans
    subst h1 h2
    simp [hparse, hcfg, hr, tokenRequest]
  | resp st b rerr =>
    simp only [hr, arbiterAnswer, Prod.mk.injEq] at hans
    obtain ⟨h1, h2⟩ := hans
    subst h1 h2
    by_cases hst : st = 200 <;> simp [hparse, hcfg, hr, hst, tokenRequest]

theorem requestToken_frame (env : Env) (href method : String) (s : State) :
    (requestToken env href method s).2.tokenCache = s.tokenCache ∧
    (requestToken env href method s).2.relays = s.relays ∧
    storeTraffic (requestToken env href method s).2.log = storeTraffic s.log := by
  cases hparse : env.urlParse href with
  | error e => simp [requestToken, hparse]
  | ok u =>
    cases hcfg : env.newRequestOk "POST" (env.arbiterURL ++ "/token") with
    | false => simp [requestToken, makeArbiterRequest, hparse, hcfg]
    | true =>
      rcases hans : arbiterAnswer (env.httpDo s.log (tokenRequest env u method))
        with ⟨body, status⟩
      rw [requestToken_parsed env href method s u body status hparse hcfg hans]
      simp [storeTraffic, List.filter_append, Event.isArbiter]

theorem requestToken_granted (env : Env) (href method : String) (s s1 : State) (tok : String)
    (h : requestToken env href method s = (.ret (tok, none), s1)) :
    ∃ u, env.urlParse href = .ok u ∧
      env.newRequestOk "POST" (env.arbiterURL ++ "/token") = true ∧
      arbiterAnswer (env.httpDo s.log (tokenRequest env u method)) = (tok, 200) ∧
      s1 = { s with log := s.log ++ [Event.arbiter (tokenRequest env u method)] } := by
  cases hparse : env.urlParse href with
  | error e => simp [requestToken, hparse] at h
  | ok u =>
    cases hcfg : env.newRequestOk "POST" (env.arbiterURL ++ "/token") with
    | false => simp [requestToken, makeArbiterRequest, hparse, hcfg] at h
    | true =>
      rcases hans : arbiterAnswer (env.httpDo s.log (tokenRequest env u method))
        with ⟨body, status⟩
      rw [requestToken_parsed env href method s u body status hparse hcfg hans] at h
      simp only [Prod.mk.injEq, Res.ret.injEq] at h
      obtain ⟨⟨hb, hs⟩, hs1⟩ := h
      by_cases hst : status = 200
      · subst hst hb
        exact ⟨u, rfl, rfl, hans, hs1.symm⟩
      · simp [hst] at hs

theorem storeRequest_state (env : Env) (href method key : String) (s : State) :
    (storeRequest env href method key s).2 =
      { s with log := s.log ++
          (if env.newRequestOk method href then
            [Event.store ⟨method, href, (s.tokenCache key).getD "", "application/json", none⟩]
          else []) } := by
  unfold storeRequest
  cases env.newRequestOk method href with
  | false => simp
  | true =>
    simp only [if_true]
    split <;> rfl

theorem storeRequestPOST_state (env : Env) (href data key : String) (s : State) :
    (storeRequestPOST env href data key s).2 =
      { s with log := s.log ++
          (if env.newRequestOk "POST" href then
            [Event.store ⟨"POST", href, (s.tokenCache key).getD "", "application/json", some data⟩]
          else []) } := by
  unfold storeRequestPOST
  cases env.newRequestOk "POST" href with
  | false => simp
  | true =>
    simp only [if_true]
    split <;> rfl

theorem makeStoreRequest_hit_state (env : Env) (href method : String) (s : State) (t : String)
    (hhit : s.tokenCache (routeHash env href method) = some t) :
    (makeStoreRequest env href method s).2 =
      { s with log := s.log ++ sentStoreRequest env href (env.ToUpper method) t } := by
  have hhit2 := hhit
  unfold routeHash at hhit2
  simp only [makeStoreRequest, hhit2]
  rw [storeRequest_state]
  simp [sentStoreRequest, hhit2]

theorem makeStoreRequest_miss_state (env : Env) (href method : String) (s s1 : State)
    (tok : String)
    (hmiss : s.tokenCache (routeHash env href method) = none)
    (htok : requestToken env href (env.ToUpper method) s = (.ret (tok, none), s1)) :
    ∃ u, env.urlParse href = .ok u ∧
      (makeStoreRequest env href method s).2 =
        { tokenCache := cachePut s.tokenCache (routeHash env href method) tok,
          log := s.log ++ [Event.arbiter (tokenRequest env u (env.ToUpper method))]
            ++ sentStoreRequest env href (env.ToUpper method) tok,
          relays := s.relays } := by
  obtain ⟨u, hparse, _, _, hs1⟩ := requestToken_granted env href _ s s1 tok htok
  refine ⟨u, hparse, ?_⟩
  have hmiss2 := hmiss
  unfold routeHash at hmiss2
  simp only [makeStoreRequest, hmiss2, htok]
  rw [storeRequest_state]
  subst hs1
  simp [sentStoreRequest, cachePut, routeHash]

theorem makeStoreRequestPOST_hit_state (env : Env) (href data : String) (s : State) (t : String)
    (hhit : s.tokenCache (routeHashPOST env href) = some t) :
    (makeStoreRequestPOST env href data s).2 =
      { s with log := s.log ++ sentStoreRequestPOST env href data t } := by
  have hhit2 := hhit
  unfold routeHashPOST at hhit2
  simp only [makeStoreRequestPOST, hhit2]
  rw [storeRequestPOST_state]
  simp [sentStoreRequestPOST, hhit2]

theorem makeStoreRequestPOST_miss_state (env : Env) (href data : String) (s s1 : State)
    (tok : String)
    (hmiss : s.tokenCache (routeHashPOST env href) = none)
    (htok : requestToken env href "POST" s = (.ret (tok, none), s1)) :
    ∃ u, env.urlParse href = .ok u ∧
      (makeStoreRequestPOST env href data s).2 =
        { tokenCache := cachePut s.tokenCache (routeHashPOST env href) tok,
          log := s.log ++ [Event.arbiter (tokenRequest env u "POST")]
            ++ sentStoreRequestPOST env href data tok,
          relays := s.relays } := by
  obtain ⟨u, hparse, _, _, hs1⟩ := requestToken_granted env href _ s s1 tok htok
  refine ⟨u, hparse, ?_⟩
  have hmiss2 := hmiss
  unfold routeHashPOST at hmiss2
  simp only [makeStoreRequestPOST, hmiss2, htok]
  rw [storeRequestPOST_state]
  subst hs1
  simp [sentStoreRequestPOST, cachePut, routeHashPOST]

theorem arbiterCalls_append (l1 l2 : List Event) :
    arbiterCalls (l1 ++ l2) = arbiterCalls l1 + arbiterCalls l2 := by
  simp [arbiterCalls, List.filter_append]

theorem arbiterCalls_single (req : HttpRequest) : arbiterCalls [Event.arbiter req] = 1 := by
  simp [arbiterCalls, Event.isArbiter]

theorem arbiterCalls_sentStoreRequest (env : Env) (href method token : String) :
    arbiterCalls (sentStoreRequest env href method token) = 0 := by
  unfold sentStoreRequest
  split <;> simp [arbiterCalls, Event.isArbiter]

theorem arbiterCalls_sentStoreRequestPOST (env : Env) (href data token : String) :
    arbiterCalls (sentStoreRequestPOST env href data token) = 0 := by
  unfold sentStoreRequestPOST
  split <;> simp [arbiterCalls, Event.isArbiter]

theorem requestToken_untouched (env : Env) (href method : String) (s s1 : State)
    (r : Res (String × Option String)) (h : requestToken env href method s = (r, s1)) :
    Untouched s s1 := by
  have hf := requestToken_frame env href method s
  rw [h] at hf
  exact ⟨hf.1, hf.2.2, hf.2.1⟩

theorem requestToken_of_parsed (env : Env) (href method : String) (s : State) (u : URL)
    (hparse : env.urlParse href = .ok u)
    (hcfg : env.newRequestOk "POST" (env.arbiterURL ++ "/token") = true) :
    ∃ r, requestToken env href method s =
      (.ret r, { s with log := s.log ++ [Event.arbiter (tokenRequest env u method)] }) := by
  rcases hans : arbiterAnswer (env.httpDo s.log (tokenRequest env u method)) with ⟨body, status⟩
  exact ⟨_, requestToken_parsed env href method s u body status hparse hcfg hans⟩

theorem arbiterCalls_snoc_arbiter (l : List Event) (req : HttpRequest) :
    arbiterCalls (l ++ [Event.arbiter req]) = arbiterCalls l + 1 := by
  rw [arbiterCalls_append, arbiterCalls_single]

theorem arbiterCalls_snoc_zestPost (l : List Event) (token path : String) (payload : Bytes)
    (format : String) :
    arbiterCalls (l ++ [Event.zestPost token path payload format]) = arbiterCalls l := by
  simp [arbiterCalls, List.filter_append, Event.isArbiter]

theorem arbiterCalls_snoc_zestGet (l : List Event) (token path format : String) :
    arbiterCalls (l ++ [Event.zestGet token path format]) = arbiterCalls l := by
  simp [arbiterCalls, List.filter_append, Event.isArbiter]

theorem Write_arbiterCalls (env : Env) (kvc : binaryKeyValueClient) (ds key : String)
    (payload : Bytes) (s : State) (u : URL)
    (hparse : env.urlParse (kvc.zestEndpoint ++ ("/kv/" ++ ds ++ "/" ++ key)) = .ok u)
    (hcfg : env.newRequestOk "POST" (env.arbiterURL ++ "/token") = true) :
    arbiterCalls (binaryKeyValueClient.Write env kvc ds key payload s).2.log
      = arbiterCalls s.log + 1 := by
  obtain ⟨⟨tok, err⟩, h⟩ := requestToken_of_parsed env _ "POST" s u hparse hcfg
  cases err with
  | some e =>
    simp only [binaryKeyValueClient.Write, h]
    exact arbiterCalls_snoc_arbiter _ _
  | none =>
    simp only [binaryKeyValueClient.Write, h]
    split
    · simp only [invalidateCache]
      rw [arbiterCalls_snoc_zestPost, arbiterCalls_snoc_arbiter]
    · rw [arbiterCalls_snoc_zestPost, arbiterCalls_snoc_arbiter]

theorem Read_arbiterCalls (env : Env) (kvc : binaryKeyValueClient) (ds key : String)
    (s : State) (u : URL)
    (hparse : env.urlParse (kvc.zestEndpoint ++ ("/kv/" ++ ds ++ "/" ++ key)) = .ok u)
    (hcfg : env.newRequestOk "POST" (env.arbiterURL ++ "/token") = true) :
    arbiterCalls (binaryKeyValueClient.Read env kvc ds key s).2.log
      = arbiterCalls s.log + 1 := by
  obtain ⟨⟨tok, err⟩, h⟩ := requestToken_of_parsed env _ "POST" s u hparse hcfg
  cases err with
  | some e =>
    simp only [binaryKeyValueClient.Read, h]
    exact arbiterCalls_snoc_arbiter _ _
  | none =>
    simp only [binaryKeyValueClient.Read, h]
    split
    · simp only [invalidateCache]
      rw [arbiterCalls_snoc_zestGet, arbiterCalls_snoc_arbiter]
    · rw [arbiterCalls_snoc_zestGet, arbiterCalls_snoc_arbiter]

theorem ListKeys_arbiterCalls (env : Env) (kvc : binaryKeyValueClient) (ds : String)
    (s : State) (u : URL)
    (hparse : env.urlParse (kvc.zestEndpoint ++ ("/kv/" ++ ds ++ "/keys")) = .ok u)
    (hcfg : env.newRequestOk "POST" (env.arbiterURL ++ "/token") = true) :
    arbiterCalls (binaryKeyValueClient.ListKeys env kvc ds s).2.log
      = arbiterCalls s.log + 1 := by
  obtain ⟨⟨tok, err⟩, h⟩ := requestToken_of_parsed env _ "GET" s u hparse hcfg
  cases err with
  | some e =>
    simp only [binaryKeyValueClient.ListKeys, h]
    exact arbiterCalls_snoc_arbiter _ _
  | none =>
    simp only [binaryKeyValueClient.ListKeys, h]
    split
    · simp only [invalidateCache]
      rw [arbiterCalls_snoc_zestGet, arbiterCalls_snoc_arbiter]
    · split <;> rw [arbiterCalls_snoc_zestGet, arbiterCalls_snoc_arbiter]

theorem lastPosted_append (path : String) (l1 l2 : List Event) :
    lastPosted path (l1 ++ l2) =
      match lastPosted path l2 with
      | some b => some b
      | none => lastPosted path l1 := by
  induction l1 with
  | nil =>
    cases h : lastPosted path l2 <;> simp [lastPosted, h]
  | cons ev r ih =>
    rw [List.cons_append, lastPosted, ih, lastPosted]
    cases lastPosted path l2 <;> rfl

theorem requestToken_of_grants (env : Env) (href method : String) (s : State) (u : URL)
    (harb : ArbiterGrants env) (hparse : env.urlParse href = .ok u) :
    ∃ tok, requestToken env href method s =
      (.ret (tok, none),
        { s with log := s.log ++ [Event.arbiter (tokenRequest env u method)] }) := by
  obtain ⟨tok, rerr, hdo⟩ := harb.2 s.log (tokenRequest env u method) rfl
  refine ⟨tok, ?_⟩
  have hans : arbiterAnswer (env.httpDo s.log (tokenRequest env u method)) = (tok, 200) := by
    rw [hdo]
    rfl
  rw [requestToken_parsed env href method s u tok 200 hparse harb.1 hans]
  simp

theorem Relay.run_of_step_none (env : Env) (r : Relay) (h : r.step env = none) (k : Nat) :
    Relay.run env k r = r := by
  cases k with
  | zero => rfl
  | succ k => simp [Relay.run, h]

theorem Relay.run_done (env : Env) (feed : List Bytes) (closes : Bool)
    (out : List BinaryObserveResponse) (closed : Bool) (k : Nat) :
    Relay.run env k ⟨feed, closes, .done, out, closed⟩ = ⟨feed, closes, .done, out, closed⟩ :=
  Relay.run_of_step_none env ⟨feed, closes, .done, out, closed⟩ rfl k

theorem Relay.run_add (env : Env) (a b : Nat) (r : Relay) :
    Relay.run env (a + b) r = Relay.run env b (Relay.run env a r) := by
  induction a generalizing r with
  | zero => simp [Relay.run]
  | succ a ih =>
    rw [Nat.add_right_comm]
    cases h : r.step env with
    | none => simp [Relay.run, h, Relay.run_of_step_none env r h b]
    | some r1 => simp [Relay.run, h, ih]

theorem Relay.run_recv (env : Env) (feed : List Bytes) :
    ∀ (out : List BinaryObserveResponse) (k : Nat),
      (Relay.run env k ⟨feed, true, .recv, out, false⟩).out
          <+: out ++ feed.map (observeResponse env) ∧
      ((Relay.run env k ⟨feed, true, .recv, out, false⟩).closed = true →
        Relay.run env k ⟨feed, true, .recv, out, false⟩
          = ⟨[], true, .done, out ++ feed.map (observeResponse env), true⟩) ∧
      (2 * feed.length + 1 ≤ k →
        Relay.run env k ⟨feed, true, .recv, out, false⟩
          = ⟨[], true, .done, out ++ feed.map (observeResponse env), true⟩) := by
  induction feed with
  | nil =>
    intro out k
    cases k with
    | zero => simp [Relay.run]
    | succ k =>
      have h : Relay.run env (k + 1) ⟨[], true, .recv, out, false⟩
          = ⟨[], true, .done, out, true⟩ := by
        simp only [Relay.run, Relay.step]
        exact Relay.run_done env _ _ _ _ k
      rw [h]
      simp
  | cons m rest ih =>
    intro out k
    match k with
    | 0 => simp [Relay.run]
    | 1 => simp [Relay.run, Relay.step]
    | k + 2 =>
      have h : Relay.run env (k + 2) ⟨m :: rest, true, .recv, out, false⟩
          = Relay.run env k ⟨rest, true, .recv, out ++ [observeResponse env m], false⟩ := by
        simp only [Relay.run, Relay.step]
      rw [h]
      have := ih (out ++ [observeResponse env m]) k
      simp only [List.append_assoc, List.singleton_append, List.map_cons, List.length_cons]
        at this ⊢
      refine ⟨this.1, this.2.1, ?_⟩
      intro hk
      exact this.2.2 (by omega)

theorem Mock.env_arbiterGrants : ArbiterGrants Mock.env := by
  refine ⟨by decide, ?_⟩
  intro log req hreq
  refine ⟨"secret", none, ?_⟩
  have hurl : req.url = "https://arbiter:8080/token" := by
    rw [hreq]
    decide
  simp [Mock.env, hurl]

theorem Mock.env_keepsLastPosted : KeepsLastPosted Mock.env := by
  refine ⟨?_, ?_⟩
  · intro log tok path payload format
    rfl
  · intro log tok path format b hb
    simp [Mock.env, hb]

/-! ## The claims -/

/-- C10: for an href that `url.Parse` accepts (and an arbiter endpoint that
`http.NewRequest` accepts), `requestToken` appends exactly one request to the
arbiter to the traffic, leaves the token cache and the goroutines as they were,
returns the same result whatever the token cache holds, and returns the text
answered by `makeArbiterRequest` together with an error exactly when the status
is not 200; the error message is then the decimal status, `": "` and that
text.  Nothing depends on whether `net.SplitHostPort` reported an error. -/
theorem requestToken_error_iff_status (env : Env) (href method : String) (s : State) (u : URL)
    (hparse : env.urlParse href = .ok u)
    (hcfg : env.newRequestOk "POST" (env.arbiterURL ++ "/token") = true) :
    ∃ (body : String) (status : Nat) (err : Option String),
      (body, status) = arbiterAnswer (env.httpDo s.log (tokenRequest env u method)) ∧
      (requestToken env href method s).1 = .ret (body, err) ∧
      (requestToken env href method s).2.log
        = s.log ++ [Event.arbiter (tokenRequest env u method)] ∧
      arbiterCalls (requestToken env href method s).2.log = arbiterCalls s.log + 1 ∧
      (requestToken env href method s).2.tokenCache = s.tokenCache ∧
      (requestToken env href method s).2.relays = s.relays ∧
      (∀ cache, (requestToken env href method { s with tokenCache := cache }).1
        = .ret (body, err)) ∧
      (err ≠ none ↔ status ≠ 200) ∧
      (status ≠ 200 → err = some (toString status ++ ": " ++ body)) := by
  rcases hans : arbiterAnswer (env.httpDo s.log (tokenRequest env u method)) with ⟨body, status⟩
  have hc : ∀ cache, (requestToken env href method { s with tokenCache := cache }).1
      = .ret (body, if status ≠ 200 then some (toString status ++ ": " ++ body) else none) := by
    intro cache
    rw [requestToken_parsed env href method { s with tokenCache := cache } u body status
      hparse hcfg hans]
  rw [requestToken_parsed env href method s u body status hparse hcfg hans]
  refine ⟨body, status, _, rfl, rfl, rfl, ?_, rfl, rfl, hc, ?_, ?_⟩
  · simp [arbiterCalls, List.filter_append, Event.isArbiter]
  · by_cases hst : status = 200 <;> simp [hst]
  · intro hst
    simp [hst]

/-- Witness of C10: the href `tcp://store/kv/ds1/temp` has a host without a
port, so `net.SplitHostPort` reports an error; the arbiter answers 200 and
`requestToken` returns the token without error. -/
theorem requestToken_error_iff_status_witness :
    (Mock.env.SplitHostPort "store").2.2 ≠ none ∧
    (requestToken Mock.env "tcp://store/kv/ds1/temp" "POST" Mock.s0).1
      = .ret ("secret", none) ∧
    ∃ (body : String) (status : Nat) (err : Option String),
      (body, status) = arbiterAnswer (Mock.env.httpDo Mock.s0.log
        (tokenRequest Mock.env ⟨"tcp", "store", "/kv/ds1/temp"⟩ "POST")) ∧
      (requestToken Mock.env "tcp://store/kv/ds1/temp" "POST" Mock.s0).1 = .ret (body, err) ∧
      (requestToken Mock.env "tcp://store/kv/ds1/temp" "POST" Mock.s0).2.log
        = Mock.s0.log ++ [Event.arbiter
            (tokenRequest Mock.env ⟨"tcp", "store", "/kv/ds1/temp"⟩ "POST")] ∧
      arbiterCalls (requestToken Mock.env "tcp://store/kv/ds1/temp" "POST" Mock.s0).2.log
        = arbiterCalls Mock.s0.log + 1 ∧
      (requestToken Mock.env "tcp://store/kv/ds1/temp" "POST" Mock.s0).2.tokenCache
        = Mock.s0.tokenCache ∧
      (requestToken Mock.env "tcp://store/kv/ds1/temp" "POST" Mock.s0).2.relays
        = Mock.s0.relays ∧
      (∀ cache, (requestToken Mock.env "tcp://store/kv/ds1/temp" "POST"
          { Mock.s0 with tokenCache := cache }).1 = .ret (body, err)) ∧
      (err ≠ none ↔ status ≠ 200) ∧
      (status ≠ 200 → err = some (toString status ++ ": " ++ body)) :=
  ⟨by decide, by decide,
    requestToken_error_iff_status Mock.env "tcp://store/kv/ds1/temp" "POST" Mock.s0
      ⟨"tcp", "store", "/kv/ds1/temp"⟩ (by decide) (by decide)⟩

/-- C4, as stated, fails: `"get"` and `"GET"` are different methods with the
same route key for the same href, and a `makeStoreRequest` with `"GET"` after
one with `"get"` reuses the cached token (one arbiter request in total). -/
theorem routeHash_letter_case_collision :
    "get" ≠ "GET" ∧
    routeHash Mock.env "https://store:8080/cat" "get"
      = routeHash Mock.env "https://store:8080/cat" "GET" ∧
    arbiterCalls (makeStoreRequest Mock.env "https://store:8080/cat" "GET"
      (makeStoreRequest Mock.env "https://store:8080/cat" "get" Mock.s0).2).2.log = 1 := by
  decide

/-- C4, amended: the cache slot that `makeStoreRequest` consults is
`ToUpper(href) + ToUpper(method)` and the one of `makeStoreRequestPOST` is
`ToUpper(href) + "POST"`, whatever the state; for one href, two methods have
different route keys when their upper-cased forms differ, and the same route
key when their upper-cased forms agree. -/
theorem routeHash_separates_methods (env : Env) (href m1 m2 : String)
    (h : env.ToUpper m1 ≠ env.ToUpper m2) :
    routeHash env href m1 ≠ routeHash env href m2 ∧
    (∀ m, env.ToUpper m = env.ToUpper m1 → routeHash env href m = routeHash env href m1) ∧
    (∀ (s : State) (t : String), s.tokenCache (routeHash env href m1) = some t →
      makeStoreRequest env href m1 s
        = storeRequest env href (env.ToUpper m1) (routeHash env href m1) s) ∧
    (∀ (s : State) (t data : String), s.tokenCache (routeHashPOST env href) = some t →
      makeStoreRequestPOST env href data s
        = storeRequestPOST env href data (routeHashPOST env href) s) := by
  refine ⟨?_, ?_, ?_, ?_⟩
  · intro heq
    exact h (str_append_left_cancel _ _ _ heq)
  · intro m hm
    simp [routeHash, hm]
  · intro s t ht
    unfold routeHash at ht
    simp [makeStoreRequest, routeHash, ht]
  · intro s t data ht
    unfold routeHashPOST at ht
    simp [makeStoreRequestPOST, routeHashPOST, ht]

/-- Witness of the amended C4: `GET` and `POST` on one href. -/
theorem routeHash_separates_methods_witness :
    routeHash Mock.env "https://store:8080/cat" "GET"
      ≠ routeHash Mock.env "https://store:8080/cat" "POST" :=
  (routeHash_separates_methods Mock.env "https://store:8080/cat" "GET" "POST" (by decide)).1

/-- C2: starting from a token cache without an entry for the route, if the
token request of a first `makeStoreRequest` (respectively
`makeStoreRequestPOST`) is granted the token `tok`, then after a second call on
the same href and method the traffic consists of the one arbiter request of the
first call followed by the store requests of the two calls, each carrying
`tok` as API key: the arbiter is called once across the two calls, and the
second call leaves the cache as the first one left it, with `tok` in the slot
of the route. -/
theorem makeStoreRequest_cache_reuse (env : Env) (href method data1 data2 : String)
    (s : State) :
    (∀ (tok : String) (s1 : State),
      s.tokenCache (routeHash env href method) = none →
      requestToken env href (env.ToUpper method) s = (.ret (tok, none), s1) →
      ∃ u, env.urlParse href = .ok u ∧
        (makeStoreRequest env href method (makeStoreRequest env href method s).2).2.log
          = s.log ++ [Event.arbiter (tokenRequest env u (env.ToUpper method))]
            ++ sentStoreRequest env href (env.ToUpper method) tok
            ++ sentStoreRequest env href (env.ToUpper method) tok ∧
        arbiterCalls (makeStoreRequest env href method s).2.log = arbiterCalls s.log + 1 ∧
        arbiterCalls
          (makeStoreRequest env href method (makeStoreRequest env href method s).2).2.log
          = arbiterCalls s.log + 1 ∧
        (makeStoreRequest env href method s).2.tokenCache (routeHash env href method)
          = some tok ∧
        (makeStoreRequest env href method (makeStoreRequest env href method s).2).2.tokenCache
          = (makeStoreRequest env href method s).2.tokenCache) ∧
    (∀ (tok : String) (s1 : State),
      s.tokenCache (routeHashPOST env href) = none →
      requestToken env href "POST" s = (.ret (tok, none), s1) →
      ∃ u, env.urlParse href = .ok u ∧
        (makeStoreRequestPOST env href data2 (makeStoreRequestPOST env href data1 s).2).2.log
          = s.log ++ [Event.arbiter (tokenRequest env u "POST")]
            ++ sentStoreRequestPOST env href data1 tok
            ++ sentStoreRequestPOST env href data2 tok ∧
        arbiterCalls (makeStoreRequestPOST env href data1 s).2.log = arbiterCalls s.log + 1 ∧
        arbiterCalls
          (makeStoreRequestPOST env href data2 (makeStoreRequestPOST env href data1 s).2).2.log
          = arbiterCalls s.log + 1 ∧
        (makeStoreRequestPOST env href data1 s).2.tokenCache (routeHashPOST env href)
          = some tok ∧
        (makeStoreRequestPOST env href data2
            (makeStoreRequestPOST env href data1 s).2).2.tokenCache
          = (makeStoreRequestPOST env href data1 s).2.tokenCache) := by
  constructor
  · intro tok s1 hmiss htok
    obtain ⟨u, hparse, h1⟩ := makeStoreRequest_miss_state env href method s s1 tok hmiss htok
    have hhit : (makeStoreRequest env href method s).2.tokenCache (routeHash env href method)
        = some tok := by
      rw [h1]
      simp [cachePut]
    have h2 := makeStoreRequest_hit_state env href method _ tok hhit
    refine ⟨u, hparse, ?_, ?_, ?_, hhit, ?_⟩
    · rw [h2, h1]
    · rw [h1]
      simp only [arbiterCalls_append, arbiterCalls_sentStoreRequest, arbiterCalls_single,
        Nat.add_zero]
    · rw [h2, h1]
      simp only [arbiterCalls_append, arbiterCalls_sentStoreRequest, arbiterCalls_single,
        Nat.add_zero]
    · rw [h2]
  · intro tok s1 hmiss htok
    obtain ⟨u, hparse, h1⟩ :=
      makeStoreRequestPOST_miss_state env href data1 s s1 tok hmiss htok
    have hhit : (makeStoreRequestPOST env href data1 s).2.tokenCache (routeHashPOST env href)
        = some tok := by
      rw [h1]
      simp [cachePut]
    have h2 := makeStoreRequestPOST_hit_state env href data2 _ tok hhit
    refine ⟨u, hparse, ?_, ?_, ?_, hhit, ?_⟩
    · rw [h2, h1]
    · rw [h1]
      simp only [arbiterCalls_append, arbiterCalls_sentStoreRequestPOST, arbiterCalls_single,
        Nat.add_zero]
    · rw [h2, h1]
      simp only [arbiterCalls_append, arbiterCalls_sentStoreRequestPOST, arbiterCalls_single,
        Nat.add_zero]
    · rw [h2]

/-- Witness of C2: two `makeStoreRequest` calls with method `get`, and two
`makeStoreRequestPOST` calls, on `https://store:8080/cat` from an empty cache:
one arbiter request in each case. -/
theorem makeStoreRequest_cache_reuse_witness :
    (Mock.s0.tokenCache (routeHash Mock.env "https://store:8080/cat" "get") = none ∧
      (requestToken Mock.env "https://store:8080/cat" (Mock.env.ToUpper "get") Mock.s0).1
        = .ret ("secret", none) ∧
      arbiterCalls (makeStoreRequest Mock.env "https://store:8080/cat" "get"
          (makeStoreRequest Mock.env "https://store:8080/cat" "get" Mock.s0).2).2.log
        = arbiterCalls Mock.s0.log + 1) ∧
    (Mock.s0.tokenCache (routeHashPOST Mock.env "https://store:8080/cat") = none ∧
      (requestToken Mock.env "https://store:8080/cat" "POST" Mock.s0).1
        = .ret ("secret", none) ∧
      arbiterCalls (makeStoreRequestPOST Mock.env "https://store:8080/cat" "b"
          (makeStoreRequestPOST Mock.env "https://store:8080/cat" "a" Mock.s0).2).2.log
        = arbiterCalls Mock.s0.log + 1) := by
  have h := makeStoreRequest_cache_reuse Mock.env "https://store:8080/cat" "get" "a" "b" Mock.s0
  obtain ⟨_, _, _, _, h1, _, _⟩ := h.1 "secret"
    (requestToken Mock.env "https://store:8080/cat" (Mock.env.ToUpper "get") Mock.s0).2
    (by decide) (Prod.ext (by decide) rfl)
  obtain ⟨_, _, _, _, h2, _, _⟩ := h.2 "secret"
    (requestToken Mock.env "https://store:8080/cat" "POST" Mock.s0).2
    (by decide) (Prod.ext (by decide) rfl)
  exact ⟨⟨by decide, by decide, h1⟩, ⟨by decide, by decide, h2⟩⟩

/-- C7: when the token request of `makeStoreRequest`, `makeStoreRequestPOST`,
`Write`, `Read`, `ListKeys`, `ObserveKey` or `Observe` fails with the error
`err`, the operation returns `err` itself and the state reached by the token
request, which has the token cache, the traffic to the store and the goroutines
of the initial state; `ObserveKey` and `Observe` return the nil channel.  When
the token is granted but opening the subscription fails, `ObserveKey` and
`Observe` return the nil channel with an error and start no goroutine. -/
theorem authorization_failure_short_circuits (env : Env) (kvc : binaryKeyValueClient)
    (s s1 : State) (t err : String) :
    (∀ href method, s.tokenCache (routeHash env href method) = none →
      requestToken env href (env.ToUpper method) s = (.ret (t, some err), s1) →
      makeStoreRequest env href method s = (.ret ("", some err), s1) ∧ Untouched s s1) ∧
    (∀ href data, s.tokenCache (routeHashPOST env href) = none →
      requestToken env href "POST" s = (.ret (t, some err), s1) →
      makeStoreRequestPOST env href data s = (.ret ("", some err), s1) ∧ Untouched s s1) ∧
    (∀ ds key payload,
      requestToken env (kvc.zestEndpoint ++ ("/kv/" ++ ds ++ "/" ++ key)) "POST" s
        = (.ret (t, some err), s1) →
      binaryKeyValueClient.Write env kvc ds key payload s = (.ret (some err), s1)
        ∧ Untouched s s1) ∧
    (∀ ds key,
      requestToken env (kvc.zestEndpoint ++ ("/kv/" ++ ds ++ "/" ++ key)) "POST" s
        = (.ret (t, some err), s1) →
      binaryKeyValueClient.Read env kvc ds key s = (.ret ([], some err), s1)
        ∧ Untouched s s1) ∧
    (∀ ds,
      requestToken env (kvc.zestEndpoint ++ ("/kv/" ++ ds ++ "/keys")) "GET" s
        = (.ret (t, some err), s1) →
      binaryKeyValueClient.ListKeys env kvc ds s = (.ret ([], some err), s1)
        ∧ Untouched s s1) ∧
    (∀ ds key,
      requestToken env (kvc.zestEndpoint ++ ("/kv/" ++ ds ++ "/" ++ key)) "GET" s
        = (.ret (t, some err), s1) →
      binaryKeyValueClient.ObserveKey env kvc ds key s = (.ret (none, some err), s1)
        ∧ Untouched s s1) ∧
    (∀ ds,
      requestToken env (kvc.zestEndpoint ++ ("/kv/" ++ ds ++ "/*")) "GET" s
        = (.ret (t, some err), s1) →
      binaryKeyValueClient.Observe env kvc ds s = (.ret (none, some err), s1)
        ∧ Untouched s s1) ∧
    (∀ ds key e,
      requestToken env (kvc.zestEndpoint ++ ("/kv/" ++ ds ++ "/" ++ key)) "GET" s
        = (.ret (t, none), s1) →
      env.zestObserve s1.log t ("/kv/" ++ ds ++ "/" ++ key) "BINARY" 0 = .error e →
      (binaryKeyValueClient.ObserveKey env kvc ds key s).1
          = .ret (none, some ("Error observing: " ++ e)) ∧
        (binaryKeyValueClient.ObserveKey env kvc ds key s).2.relays = s.relays) ∧
    (∀ ds e,
      requestToken env (kvc.zestEndpoint ++ ("/kv/" ++ ds ++ "/*")) "GET" s
        = (.ret (t, none), s1) →
      env.zestObserve s1.log t ("/kv/" ++ ds ++ "/*") "JSON" 0 = .error e →
      (binaryKeyValueClient.Observe env kvc ds s).1
          = .ret (none, some ("Error observing: " ++ e)) ∧
        (binaryKeyValueClient.Observe env kvc ds s).2.relays = s.relays) := by
  refine ⟨?_, ?_, ?_, ?_, ?_, ?_, ?_, ?_, ?_⟩
  · intro href method hmiss h
    refine ⟨?_, requestToken_untouched _ _ _ _ _ _ h⟩
    unfold routeHash at hmiss
    simp only [makeStoreRequest, hmiss, h]
  · intro href data hmiss h
    refine ⟨?_, requestToken_untouched _ _ _ _ _ _ h⟩
    unfold routeHashPOST at hmiss
    simp only [makeStoreRequestPOST, hmiss, h]
  · intro ds key payload h
    refine ⟨?_, requestToken_untouched _ _ _ _ _ _ h⟩
    simp only [binaryKeyValueClient.Write, h]
  · intro ds key h
    refine ⟨?_, requestToken_untouched _ _ _ _ _ _ h⟩
    simp only [binaryKeyValueClient.Read, h]
  · intro ds h
    refine ⟨?_, requestToken_untouched _ _ _ _ _ _ h⟩
    simp only [binaryKeyValueClient.ListKeys, h]
  · intro ds key h
    refine ⟨?_, requestToken_untouched _ _ _ _ _ _ h⟩
    simp only [binaryKeyValueClient.ObserveKey, binaryKeyValueClient.observePath, h]
  · intro ds h
    refine ⟨?_, requestToken_untouched _ _ _ _ _ _ h⟩
    simp only [binaryKeyValueClient.Observe, binaryKeyValueClient.observePath, h]
  · intro ds key e h hobs
    have hu := requestToken_untouched _ _ _ _ _ _ h
    simp only [binaryKeyValueClient.ObserveKey, binaryKeyValueClient.observePath, h, hobs,
      invalidateCache, hu.2.2, and_self]
  · intro ds e h hobs
    have hu := requestToken_untouched _ _ _ _ _ _ h
    simp only [binaryKeyValueClient.Observe, binaryKeyValueClient.observePath, h, hobs,
      invalidateCache, hu.2.2, and_self]

/-- Witness of C7: with an arbiter that answers 401, `Write` returns the error
of the token request and sends nothing to the store; with a granting arbiter
and a store that refuses the subscription, `ObserveKey` returns the nil channel
and starts no goroutine. -/
theorem authorization_failure_short_circuits_witness :
    ((requestToken Mock.envDeny (Mock.kvc.zestEndpoint ++ ("/kv/" ++ "ds1" ++ "/" ++ "temp"))
        "POST" Mock.s0).1 = .ret ("denied", some "401: denied") ∧
      (binaryKeyValueClient.Write Mock.envDeny Mock.kvc "ds1" "temp" [50, 49] Mock.s0).1
        = .ret (some "401: denied") ∧
      Untouched Mock.s0
        (binaryKeyValueClient.Write Mock.envDeny Mock.kvc "ds1" "temp" [50, 49] Mock.s0).2) ∧
    ((binaryKeyValueClient.ObserveKey Mock.envDown Mock.kvc "ds1" "temp" Mock.s0).1
        = .ret (none, some "Error observing: connection refused") ∧
      (binaryKeyValueClient.ObserveKey Mock.envDown Mock.kvc "ds1" "temp" Mock.s0).2.relays
        = Mock.s0.relays) := by
  have h1 := (authorization_failure_short_circuits Mock.envDeny Mock.kvc Mock.s0
    (requestToken Mock.envDeny (Mock.kvc.zestEndpoint ++ ("/kv/" ++ "ds1" ++ "/" ++ "temp"))
      "POST" Mock.s0).2 "denied" "401: denied").2.2.1 "ds1" "temp" [50, 49]
    (Prod.ext (by decide) rfl)
  have h2 := (authorization_failure_short_circuits Mock.envDown Mock.kvc Mock.s0
    (requestToken Mock.envDown (Mock.kvc.zestEndpoint ++ ("/kv/" ++ "ds1" ++ "/" ++ "temp"))
      "GET" Mock.s0).2 "secret" "").2.2.2.2.2.2.2.1 "ds1" "temp" "connection refused"
    (Prod.ext (by decide) rfl) (by decide)
  refine ⟨⟨by decide, ?_, ?_⟩, h2⟩
  · rw [h1.1]
  · rw [h1.1]
    exact h1.2

/-- C3 fails on the code for `ListKeys`: with a token cached for `GET` and one
for `POST` on the href of the key list and a store whose `Get` fails,
`ListKeys("ds1")` requests its token for `GET` (the arbiter request says so),
returns the read error, leaves the entry of `GET` in the cache and deletes the
entry of `POST`. -/
theorem listKeys_invalidates_post_route :
    (binaryKeyValueClient.ListKeys Mock.envDown Mock.kvc "ds1"
        (Mock.sCached "tcp://store:5555/kv/ds1/keys")).1
      = .ret ([], some "Error reading data: connection refused") ∧
    (binaryKeyValueClient.ListKeys Mock.envDown Mock.kvc "ds1"
        (Mock.sCached "tcp://store:5555/kv/ds1/keys")).2.log
      = [Event.arbiter ⟨"POST", "https://arbiter:8080/token", "YXJi", "application/json",
            some "\x7b\"target\":\"store\",\"path\":\"/kv/ds1/keys\",\"method\":\"GET\"\x7d"⟩,
          Event.zestGet "secret" "/kv/ds1/keys" "JSON"] ∧
    (Mock.sCached "tcp://store:5555/kv/ds1/keys").tokenCache
        (routeHash Mock.envDown "tcp://store:5555/kv/ds1/keys" "GET") = some "tG" ∧
    (Mock.sCached "tcp://store:5555/kv/ds1/keys").tokenCache
        (routeHash Mock.envDown "tcp://store:5555/kv/ds1/keys" "POST") = some "tP" ∧
    (binaryKeyValueClient.ListKeys Mock.envDown Mock.kvc "ds1"
        (Mock.sCached "tcp://store:5555/kv/ds1/keys")).2.tokenCache
        (routeHash Mock.envDown "tcp://store:5555/kv/ds1/keys" "GET") = some "tG" ∧
    (binaryKeyValueClient.ListKeys Mock.envDown Mock.kvc "ds1"
        (Mock.sCached "tcp://store:5555/kv/ds1/keys")).2.tokenCache
        (routeHash Mock.envDown "tcp://store:5555/kv/ds1/keys" "POST") = none := by
  decide

/-- C8, as stated, fails: with a store that refuses the connection, `Write`
returns an error with another message than the transport error and deletes
the cached token of its route. -/
theorem write_transport_failure_invalidates :
    (binaryKeyValueClient.Write Mock.envDown Mock.kvc "ds1" "temp" [50, 49, 46, 53]
        (Mock.sCached "tcp://store:5555/kv/ds1/temp")).1
      = .ret (some "Error writing data: connection refused") ∧
    "Error writing data: connection refused" ≠ "connection refused" ∧
    (Mock.sCached "tcp://store:5555/kv/ds1/temp").tokenCache
        (routeHash Mock.envDown "tcp://store:5555/kv/ds1/temp" "POST") = some "tP" ∧
    (binaryKeyValueClient.Write Mock.envDown Mock.kvc "ds1" "temp" [50, 49, 46, 53]
        (Mock.sCached "tcp://store:5555/kv/ds1/temp")).2.tokenCache
        (routeHash Mock.envDown "tcp://store:5555/kv/ds1/temp" "POST") = none := by
  decide

/-- C8, amended: when the call to the store fails with the error `e`, whatever
its cause, `Write`, `Read`, `ObserveKey`, `Observe` and `RegisterDatasource`
return a new error made of a prefix of their own and the message `e`, and the
token cache they leave is the initial one with the entry of the route of their
token request deleted; `ListKeys` returns `"Error reading data: "` followed by
`e`; `makeStoreRequestPOST` returns `e` unchanged and keeps the cache, including
a token it has just stored; `makeStoreRequest` keeps the cache as well, whatever
the outcome of its store request. -/
theorem transport_failure_effects {M : Type} (env : Env) (kvc : binaryKeyValueClient)
    (toHypercat : M → String → Bytes × Option String)
    (s s1 : State) (tok e : String) :
    (∀ ds key payload,
      requestToken env (kvc.zestEndpoint ++ ("/kv/" ++ ds ++ "/" ++ key)) "POST" s
        = (.ret (tok, none), s1) →
      env.zestPost s1.log tok ("/kv/" ++ ds ++ "/" ++ key) payload "BINARY" = some e →
      (binaryKeyValueClient.Write env kvc ds key payload s).1
          = .ret (some ("Error writing data: " ++ e)) ∧
        (binaryKeyValueClient.Write env kvc ds key payload s).2.tokenCache
          = cacheDelete s.tokenCache
              (routeHash env (kvc.zestEndpoint ++ ("/kv/" ++ ds ++ "/" ++ key)) "POST")) ∧
    (∀ ds key,
      requestToken env (kvc.zestEndpoint ++ ("/kv/" ++ ds ++ "/" ++ key)) "POST" s
        = (.ret (tok, none), s1) →
      env.zestGet s1.log tok ("/kv/" ++ ds ++ "/" ++ key) "BINARY" = .error e →
      (binaryKeyValueClient.Read env kvc ds key s).1
          = .ret ([], some ("Error reading data: " ++ e)) ∧
        (binaryKeyValueClient.Read env kvc ds key s).2.tokenCache
          = cacheDelete s.tokenCache
              (routeHash env (kvc.zestEndpoint ++ ("/kv/" ++ ds ++ "/" ++ key)) "POST")) ∧
    (∀ ds key,
      requestToken env (kvc.zestEndpoint ++ ("/kv/" ++ ds ++ "/" ++ key)) "GET" s
        = (.ret (tok, none), s1) →
      env.zestObserve s1.log tok ("/kv/" ++ ds ++ "/" ++ key) "BINARY" 0 = .error e →
      (binaryKeyValueClient.ObserveKey env kvc ds key s).1
          = .ret (none, some ("Error observing: " ++ e)) ∧
        (binaryKeyValueClient.ObserveKey env kvc ds key s).2.tokenCache
          = cacheDelete s.tokenCache
              (routeHash env (kvc.zestEndpoint ++ ("/kv/" ++ ds ++ "/" ++ key)) "GET")) ∧
    (∀ ds,
      requestToken env (kvc.zestEndpoint ++ ("/kv/" ++ ds ++ "/*")) "GET" s
        = (.ret (tok, none), s1) →
      env.zestObserve s1.log tok ("/kv/" ++ ds ++ "/*") "JSON" 0 = .error e →
      (binaryKeyValueClient.Observe env kvc ds s).1
          = .ret (none, some ("Error observing: " ++ e)) ∧
        (binaryKeyValueClient.Observe env kvc ds s).2.tokenCache
          = cacheDelete s.tokenCache
              (routeHash env (kvc.zestEndpoint ++ ("/kv/" ++ ds ++ "/*")) "GET")) ∧
    (∀ metadata,
      requestToken env (kvc.zestEndpoint ++ "/cat") "POST" s = (.ret (tok, none), s1) →
      env.zestPost s1.log tok "/cat" (toHypercat metadata (kvc.zestEndpoint ++ "/kv/")).1 "JSON"
        = some e →
      (binaryKeyValueClient.RegisterDatasource env toHypercat kvc metadata s).1
          = .ret (some ("Error writing: " ++ e)) ∧
        (binaryKeyValueClient.RegisterDatasource env toHypercat kvc metadata s).2.tokenCache
          = cacheDelete s.tokenCache (routeHash env (kvc.zestEndpoint ++ "/cat") "POST")) ∧
    (∀ ds,
      requestToken env (kvc.zestEndpoint ++ ("/kv/" ++ ds ++ "/keys")) "GET" s
        = (.ret (tok, none), s1) →
      env.zestGet s1.log tok ("/kv/" ++ ds ++ "/keys") "JSON" = .error e →
      (binaryKeyValueClient.ListKeys env kvc ds s).1
          = .ret ([], some ("Error reading data: " ++ e))) ∧
    (∀ href data t, s.tokenCache (routeHashPOST env href) = some t →
      env.newRequestOk "POST" href = true →
      env.httpDo s.log ⟨"POST", href, t, "application/json", some data⟩ = .doErr e →
      (makeStoreRequestPOST env href data s).1 = .ret ("", some e) ∧
        (makeStoreRequestPOST env href data s).2.tokenCache = s.tokenCache) ∧
    (∀ href data, s.tokenCache (routeHashPOST env href) = none →
      requestToken env href "POST" s = (.ret (tok, none), s1) →
      env.newRequestOk "POST" href = true →
      env.httpDo s1.log ⟨"POST", href, tok, "application/json", some data⟩ = .doErr e →
      (makeStoreRequestPOST env href data s).1 = .ret ("", some e) ∧
        (makeStoreRequestPOST env href data s).2.tokenCache
          = cachePut s.tokenCache (routeHashPOST env href) tok) ∧
    (∀ href method t, s.tokenCache (routeHash env href method) = some t →
      (makeStoreRequest env href method s).2.tokenCache = s.tokenCache) ∧
    (∀ href method, s.tokenCache (routeHash env href method) = none →
      requestToken env href (env.ToUpper method) s = (.ret (tok, none), s1) →
      (makeStoreRequest env href method s).2.tokenCache
        = cachePut s.tokenCache (routeHash env href method) tok) := by
  refine ⟨?_, ?_, ?_, ?_, ?_, ?_, ?_, ?_, ?_, ?_⟩
  · intro ds key payload h hfail
    have hu := requestToken_untouched _ _ _ _ _ _ h
    simp only [binaryKeyValueClient.Write, h, hfail, invalidateCache, hu.1, and_self]
  · intro ds key h hfail
    have hu := requestToken_untouched _ _ _ _ _ _ h
    simp only [binaryKeyValueClient.Read, h, hfail, invalidateCache, hu.1, and_self]
  · intro ds key h hfail
    have hu := requestToken_untouched _ _ _ _ _ _ h
    simp only [binaryKeyValueClient.ObserveKey, binaryKeyValueClient.observePath, h, hfail,
      invalidateCache, hu.1, and_self]
  · intro ds h hfail
    have hu := requestToken_untouched _ _ _ _ _ _ h
    simp only [binaryKeyValueClient.Observe, binaryKeyValueClient.observePath, h, hfail,
      invalidateCache, hu.1, and_self]
  · intro metadata h hfail
    have hu := requestToken_untouched _ _ _ _ _ _ h
    simp only [binaryKeyValueClient.RegisterDatasource, h, hfail, invalidateCache, hu.1,
      and_self]
  · intro ds h hfail
    simp only [binaryKeyValueClient.ListKeys, h, hfail]
  · intro href data t hhit hnew hdo
    unfold routeHashPOST at hhit
    simp [makeStoreRequestPOST, storeRequestPOST, hhit, hnew, hdo]
  · intro href data hmiss h hnew hdo
    have hu := requestToken_untouched _ _ _ _ _ _ h
    unfold routeHashPOST at hmiss
    simp [makeStoreRequestPOST, storeRequestPOST, hmiss, h, hnew, hdo, cachePut, routeHashPOST,
      hu.1]
  · intro href method t hhit
    rw [makeStoreRequest_hit_state env href method s t hhit]
  · intro href method hmiss h
    obtain ⟨u, _, hst⟩ := makeStoreRequest_miss_state env href method s s1 tok hmiss h
    rw [hst]

/-- Witness of the amended C8: `Write` against a store that refuses the
connection, with a token cached for the route. -/
theorem transport_failure_effects_witness :
    (requestToken Mock.envDown (Mock.kvc.zestEndpoint ++ ("/kv/" ++ "ds1" ++ "/" ++ "temp"))
        "POST" (Mock.sCached "tcp://store:5555/kv/ds1/temp")).1 = .ret ("secret", none) ∧
    (binaryKeyValueClient.Write Mock.envDown Mock.kvc "ds1" "temp" [50, 49, 46, 53]
        (Mock.sCached "tcp://store:5555/kv/ds1/temp")).1
      = .ret (some ("Error writing data: " ++ "connection refused")) ∧
    (binaryKeyValueClient.Write Mock.envDown Mock.kvc "ds1" "temp" [50, 49, 46, 53]
        (Mock.sCached "tcp://store:5555/kv/ds1/temp")).2.tokenCache
      = cacheDelete (Mock.sCached "tcp://store:5555/kv/ds1/temp").tokenCache
          (routeHash Mock.envDown
            (Mock.kvc.zestEndpoint ++ ("/kv/" ++ "ds1" ++ "/" ++ "temp")) "POST") :=
  ⟨by decide,
    (transport_failure_effects Mock.envDown Mock.kvc (fun (_ : Unit) _ => ([], none))
      (Mock.sCached "tcp://store:5555/kv/ds1/temp")
      (requestToken Mock.envDown (Mock.kvc.zestEndpoint ++ ("/kv/" ++ "ds1" ++ "/" ++ "temp"))
        "POST" (Mock.sCached "tcp://store:5555/kv/ds1/temp")).2
      "secret" "connection refused").1 "ds1" "temp" [50, 49, 46, 53]
      (Prod.ext (by decide) rfl) (by decide)⟩

/-- C9, as stated, fails: two consecutive `Write` calls on one route, from an
empty cache, with a granting arbiter and a store that accepts the writes, send
two token requests to the arbiter, and the cache is still empty afterwards. -/
theorem write_twice_two_arbiter_calls :
    (binaryKeyValueClient.Write Mock.env Mock.kvc "ds1" "temp" [50, 49, 46, 53] Mock.s0).1
      = .ret none ∧
    (binaryKeyValueClient.Write Mock.env Mock.kvc "ds1" "temp" [50, 49, 46, 53]
        (binaryKeyValueClient.Write Mock.env Mock.kvc "ds1" "temp" [50, 49, 46, 53]
          Mock.s0).2).1 = .ret none ∧
    arbiterCalls (binaryKeyValueClient.Write Mock.env Mock.kvc "ds1" "temp" [50, 49, 46, 53]
        (binaryKeyValueClient.Write Mock.env Mock.kvc "ds1" "temp" [50, 49, 46, 53]
          Mock.s0).2).2.log = 2 ∧
    (binaryKeyValueClient.Write Mock.env Mock.kvc "ds1" "temp" [50, 49, 46, 53]
        Mock.s0).2.tokenCache (routeHash Mock.env "tcp://store:5555/kv/ds1/temp" "POST")
      = none := by
  decide

/-- C9, amended: when the arbiter grants the token of a first `Write`, `Read`
or `ListKeys`, a second call of the same operation on the same route sends a
token request of its own, whatever the token cache holds: the two calls send
exactly two requests to the arbiter. -/
theorem kv_operations_request_token_each_call (env : Env) (kvc : binaryKeyValueClient)
    (s s1 : State) (tok : String) :
    (∀ ds key payload1 payload2,
      requestToken env (kvc.zestEndpoint ++ ("/kv/" ++ ds ++ "/" ++ key)) "POST" s
        = (.ret (tok, none), s1) →
      arbiterCalls (binaryKeyValueClient.Write env kvc ds key payload2
          (binaryKeyValueClient.Write env kvc ds key payload1 s).2).2.log
        = arbiterCalls s.log + 2) ∧
    (∀ ds key,
      requestToken env (kvc.zestEndpoint ++ ("/kv/" ++ ds ++ "/" ++ key)) "POST" s
        = (.ret (tok, none), s1) →
      arbiterCalls (binaryKeyValueClient.Read env kvc ds key
          (binaryKeyValueClient.Read env kvc ds key s).2).2.log
        = arbiterCalls s.log + 2) ∧
    (∀ ds,
      requestToken env (kvc.zestEndpoint ++ ("/kv/" ++ ds ++ "/keys")) "GET" s
        = (.ret (tok, none), s1) →
      arbiterCalls (binaryKeyValueClient.ListKeys env kvc ds
          (binaryKeyValueClient.ListKeys env kvc ds s).2).2.log
        = arbiterCalls s.log + 2) := by
  refine ⟨?_, ?_, ?_⟩
  · intro ds key payload1 payload2 h
    obtain ⟨u, hparse, hcfg, _, _⟩ := requestToken_granted env _ _ s s1 tok h
    rw [Write_arbiterCalls env kvc ds key payload2 _ u hparse hcfg,
      Write_arbiterCalls env kvc ds key payload1 s u hparse hcfg]
  · intro ds key h
    obtain ⟨u, hparse, hcfg, _, _⟩ := requestToken_granted env _ _ s s1 tok h
    rw [Read_arbiterCalls env kvc ds key _ u hparse hcfg,
      Read_arbiterCalls env kvc ds key s u hparse hcfg]
  · intro ds h
    obtain ⟨u, hparse, hcfg, _, _⟩ := requestToken_granted env _ _ s s1 tok h
    rw [ListKeys_arbiterCalls env kvc ds _ u hparse hcfg,
      ListKeys_arbiterCalls env kvc ds s u hparse hcfg]

/-- Witness of the amended C9: two `Write` calls from the fresh state. -/
theorem kv_operations_request_token_each_call_witness :
    (requestToken Mock.env (Mock.kvc.zestEndpoint ++ ("/kv/" ++ "ds1" ++ "/" ++ "temp"))
        "POST" Mock.s0).1 = .ret ("secret", none) ∧
    arbiterCalls (binaryKeyValueClient.Write Mock.env Mock.kvc "ds1" "temp" [50, 50]
        (binaryKeyValueClient.Write Mock.env Mock.kvc "ds1" "temp" [50, 49] Mock.s0).2).2.log
      = arbiterCalls Mock.s0.log + 2 :=
  ⟨by decide,
    (kv_operations_request_token_each_call Mock.env Mock.kvc Mock.s0
      (requestToken Mock.env (Mock.kvc.zestEndpoint ++ ("/kv/" ++ "ds1" ++ "/" ++ "temp"))
        "POST" Mock.s0).2 "secret").1 "ds1" "temp" [50, 49] [50, 50]
      (Prod.ext (by decide) rfl)⟩

/-- C5, as stated, fails: against an arbiter that grants tokens and a mock
store that keeps the last body posted on each path, `Write("ds1", "%zz", ..)`
returns an error, because `url.Parse` rejects the href
`tcp://store:5555/kv/ds1/%zz` inside `requestToken`; nothing is sent. -/
theorem write_rejects_unparsable_key :
    ArbiterGrants Mock.env ∧ KeepsLastPosted Mock.env ∧
    (binaryKeyValueClient.Write Mock.env Mock.kvc "ds1" "%zz" [50, 49, 46, 53] Mock.s0).1
      = .ret (some "parse \"tcp://store:5555/kv/ds1/%zz\": invalid URL escape \"%zz\"") ∧
    (binaryKeyValueClient.Write Mock.env Mock.kvc "ds1" "%zz" [50, 49, 46, 53] Mock.s0).2.log
      = [] := by
  exact ⟨Mock.env_arbiterGrants, Mock.env_keepsLastPosted, by decide, by decide⟩

/-- C5, amended: for every dataSourceID, key and payload such that `url.Parse`
accepts `zestEndpoint + "/kv/" + dataSourceID + "/" + key`, against an arbiter
that grants tokens and a mock store that keeps the last body posted on each
path, `Write` returns no error and a following `Read` returns exactly the
payload with no error; the traffic to the store is one post and one get on the
path `"/kv/" + dataSourceID + "/" + key`, the post carrying the payload. -/
theorem write_read_round_trip (env : Env) (kvc : binaryKeyValueClient) (ds key : String)
    (payload : Bytes) (s : State) (u : URL)
    (harb : ArbiterGrants env) (hstore : KeepsLastPosted env)
    (hparse : env.urlParse (kvc.zestEndpoint ++ ("/kv/" ++ ds ++ "/" ++ key)) = .ok u) :
    (binaryKeyValueClient.Write env kvc ds key payload s).1 = .ret none ∧
    (binaryKeyValueClient.Read env kvc ds key
        (binaryKeyValueClient.Write env kvc ds key payload s).2).1 = .ret (payload, none) ∧
    ∃ t1 t2,
      storeTraffic (binaryKeyValueClient.Read env kvc ds key
          (binaryKeyValueClient.Write env kvc ds key payload s).2).2.log
        = storeTraffic s.log ++
          [Event.zestPost t1 ("/kv/" ++ ds ++ "/" ++ key) payload "BINARY",
            Event.zestGet t2 ("/kv/" ++ ds ++ "/" ++ key) "BINARY"] := by
  obtain ⟨t1, h1⟩ := requestToken_of_grants env _ "POST" s u harb hparse
  have hpost := hstore.1 (s.log ++ [Event.arbiter (tokenRequest env u "POST")]) t1
    ("/kv/" ++ ds ++ "/" ++ key) payload "BINARY"
  have hw : binaryKeyValueClient.Write env kvc ds key payload s =
      (.ret none, { s with log := s.log ++ [Event.arbiter (tokenRequest env u "POST")]
        ++ [Event.zestPost t1 ("/kv/" ++ ds ++ "/" ++ key) payload "BINARY"] }) := by
    simp only [binaryKeyValueClient.Write, h1, hpost]
  obtain ⟨t2, h2⟩ := requestToken_of_grants env
    (kvc.zestEndpoint ++ ("/kv/" ++ ds ++ "/" ++ key)) "POST"
    { s with log := s.log ++ [Event.arbiter (tokenRequest env u "POST")]
        ++ [Event.zestPost t1 ("/kv/" ++ ds ++ "/" ++ key) payload "BINARY"] } u harb hparse
  have hlast : lastPosted ("/kv/" ++ ds ++ "/" ++ key)
      (s.log ++ [Event.arbiter (tokenRequest env u "POST")]
        ++ [Event.zestPost t1 ("/kv/" ++ ds ++ "/" ++ key) payload "BINARY"]
        ++ [Event.arbiter (tokenRequest env u "POST")]) = some payload := by
    rw [List.append_assoc, lastPosted_append]
    simp [lastPosted, postedOn]
  have hget := hstore.2 _ t2 ("/kv/" ++ ds ++ "/" ++ key) "BINARY" payload hlast
  have hr : binaryKeyValueClient.Read env kvc ds key
      { s with log := s.log ++ [Event.arbiter (tokenRequest env u "POST")]
        ++ [Event.zestPost t1 ("/kv/" ++ ds ++ "/" ++ key) payload "BINARY"] } =
      (.ret (payload, none), { s with log := s.log ++ [Event.arbiter (tokenRequest env u "POST")]
        ++ [Event.zestPost t1 ("/kv/" ++ ds ++ "/" ++ key) payload "BINARY"]
        ++ [Event.arbiter (tokenRequest env u "POST")]
        ++ [Event.zestGet t2 ("/kv/" ++ ds ++ "/" ++ key) "BINARY"] }) := by
    simp only [binaryKeyValueClient.Read, h2, hget]
  rw [hw, hr]
  refine ⟨rfl, rfl, t1, t2, ?_⟩
  simp [storeTraffic, List.filter_append, Event.isArbiter]

/-- Witness of the amended C5: `Write("ds1", "temp", "21.5")` then
`Read("ds1", "temp")`. -/
theorem write_read_round_trip_witness :
    Mock.env.urlParse (Mock.kvc.zestEndpoint ++ ("/kv/" ++ "ds1" ++ "/" ++ "temp"))
      = .ok ⟨"tcp", "store:5555", "/kv/ds1/temp"⟩ ∧
    (binaryKeyValueClient.Write Mock.env Mock.kvc "ds1" "temp" [50, 49, 46, 53] Mock.s0).1
      = .ret none ∧
    (binaryKeyValueClient.Read Mock.env Mock.kvc "ds1" "temp"
        (binaryKeyValueClient.Write Mock.env Mock.kvc "ds1" "temp" [50, 49, 46, 53]
          Mock.s0).2).1 = .ret ([50, 49, 46, 53], none) := by
  have h := write_read_round_trip Mock.env Mock.kvc "ds1" "temp" [50, 49, 46, 53] Mock.s0
    ⟨"tcp", "store:5555", "/kv/ds1/temp"⟩ Mock.env_arbiterGrants Mock.env_keepsLastPosted
    (by decide)
  exact ⟨by decide, h.1, h.2.1⟩

/-- C6: once the token of `ListKeys` is granted, a store response that
`json.Unmarshal` decodes into a list of strings makes `ListKeys` return that
list, in its order, without error; a response that it cannot decode makes
`ListKeys` return (not panic) the empty list and the error
`"Error decoding data: "` followed by the decoder's message; a failed `Get`
gives `"Error reading data: "` followed by the transport message, and no
decode error is equal to a read error. -/
theorem listKeys_decoding (env : Env) (kvc : binaryKeyValueClient) (ds : String)
    (s s1 : State) (tok : String)
    (htok : requestToken env (kvc.zestEndpoint ++ ("/kv/" ++ ds ++ "/keys")) "GET" s
      = (.ret (tok, none), s1)) :
    (∀ body keys, env.zestGet s1.log tok ("/kv/" ++ ds ++ "/keys") "JSON" = .ok body →
      env.jsonUnmarshal body = .ok keys →
      (binaryKeyValueClient.ListKeys env kvc ds s).1 = .ret (keys, none)) ∧
    (∀ body e, env.zestGet s1.log tok ("/kv/" ++ ds ++ "/keys") "JSON" = .ok body →
      env.jsonUnmarshal body = .error e →
      (binaryKeyValueClient.ListKeys env kvc ds s).1
        = .ret ([], some ("Error decoding data: " ++ e))) ∧
    (∀ e, env.zestGet s1.log tok ("/kv/" ++ ds ++ "/keys") "JSON" = .error e →
      (binaryKeyValueClient.ListKeys env kvc ds s).1
        = .ret ([], some ("Error reading data: " ++ e))) ∧
    (∀ e e1 : String, "Error decoding data: " ++ e ≠ "Error reading data: " ++ e1) := by
  refine ⟨?_, ?_, ?_, ?_⟩
  · intro body keys hget hdec
    simp only [binaryKeyValueClient.ListKeys, htok, hget, hdec]
  · intro body e hget hdec
    simp only [binaryKeyValueClient.ListKeys, htok, hget, hdec]
  · intro e hget
    simp only [binaryKeyValueClient.ListKeys, htok, hget]
  · intro e e1 h
    have hd : ("Error decoding data: " ++ e).data = ("Error reading data: " ++ e1).data := by
      rw [h]
    rw [String.data_append, String.data_append] at hd
    have h6 := congrArg (fun l => l.get? 6) hd
    simp at h6

/-- Witness of C6: the two bodies of the spec's example. -/
theorem listKeys_decoding_witness :
    (requestToken Mock.envKeys (Mock.kvc.zestEndpoint ++ ("/kv/" ++ "ds1" ++ "/keys")) "GET"
        Mock.s0).1 = .ret ("secret", none) ∧
    (binaryKeyValueClient.ListKeys Mock.envKeys Mock.kvc "ds1" Mock.s0).1
      = .ret (["a", "b", "c"], none) ∧
    (binaryKeyValueClient.ListKeys Mock.envBadKeys Mock.kvc "ds1" Mock.s0).1
      = .ret ([], some ("Error decoding data: "
          ++ "invalid character 'o' in literal null (expecting 'u')")) :=
  ⟨by decide,
    (listKeys_decoding Mock.envKeys Mock.kvc "ds1" Mock.s0
      (requestToken Mock.envKeys (Mock.kvc.zestEndpoint ++ ("/kv/" ++ "ds1" ++ "/keys")) "GET"
        Mock.s0).2 "secret" (Prod.ext (by decide) rfl)).1
      (Mock.bytes "[\"a\",\"b\",\"c\"]") ["a", "b", "c"] (by decide) (by decide),
    (listKeys_decoding Mock.envBadKeys Mock.kvc "ds1" Mock.s0
      (requestToken Mock.envBadKeys (Mock.kvc.zestEndpoint ++ ("/kv/" ++ "ds1" ++ "/keys")) "GET"
        Mock.s0).2 "secret" (Prod.ext (by decide) rfl)).2.1
      (Mock.bytes "not-json") "invalid character 'o' in literal null (expecting 'u')"
      (by decide) (by decide)⟩

/-- C1: when the subscription opened by `ObserveKey` or `Observe` delivers the
raw messages `msgs` and then closes, the call returns the outward channel of a
relay goroutine started on that feed, and this goroutine, after
`2 * msgs.length + 1` steps (and after any larger number), has handed the
consumer exactly the events `observeResponse m` for `m` in `msgs`, in that
order, and has closed the channel.  At every moment what has been delivered is
a prefix of that sequence; the channel is closed only when all of it has been
delivered, and once it is closed further steps change nothing. -/
theorem relay_delivers_in_order (env : Env) (kvc : binaryKeyValueClient) (msgs : List Bytes)
    (s s1 : State) (tok : String) :
    (∀ k, 2 * msgs.length + 1 ≤ k →
      Relay.run env k (Relay.start msgs true)
        = ⟨[], true, .done, msgs.map (observeResponse env), true⟩) ∧
    (∀ k, (Relay.run env k (Relay.start msgs true)).out <+: msgs.map (observeResponse env)) ∧
    (∀ k, (Relay.run env k (Relay.start msgs true)).closed = true →
      (Relay.run env k (Relay.start msgs true)).out = msgs.map (observeResponse env)) ∧
    (∀ k j, k ≤ j → (Relay.run env k (Relay.start msgs true)).closed = true →
      Relay.run env j (Relay.start msgs true) = Relay.run env k (Relay.start msgs true)) ∧
    (∀ ds key,
      requestToken env (kvc.zestEndpoint ++ ("/kv/" ++ ds ++ "/" ++ key)) "GET" s
        = (.ret (tok, none), s1) →
      env.zestObserve s1.log tok ("/kv/" ++ ds ++ "/" ++ key) "BINARY" 0 = .ok (msgs, true) →
      (binaryKeyValueClient.ObserveKey env kvc ds key s).1 = .ret (some s.relays.length, none) ∧
        (binaryKeyValueClient.ObserveKey env kvc ds key s).2.relays
          = s.relays ++ [Relay.start msgs true]) ∧
    (∀ ds,
      requestToken env (kvc.zestEndpoint ++ ("/kv/" ++ ds ++ "/*")) "GET" s
        = (.ret (tok, none), s1) →
      env.zestObserve s1.log tok ("/kv/" ++ ds ++ "/*") "JSON" 0 = .ok (msgs, true) →
      (binaryKeyValueClient.Observe env kvc ds s).1 = .ret (some s.relays.length, none) ∧
        (binaryKeyValueClient.Observe env kvc ds s).2.relays
          = s.relays ++ [Relay.start msgs true]) := by
  have hrun := Relay.run_recv env msgs []
  simp only [List.nil_append] at hrun
  refine ⟨?_, ?_, ?_, ?_, ?_, ?_⟩
  · intro k hk
    exact (hrun k).2.2 hk
  · intro k
    exact (hrun k).1
  · intro k hk
    have h := (hrun k).2.1 hk
    unfold Relay.start
    rw [h]
  · intro k j hkj hk
    have h := (hrun k).2.1 hk
    obtain ⟨d, rfl⟩ := Nat.exists_eq_add_of_le hkj
    unfold Relay.start
    rw [Relay.run_add, h]
    exact Relay.run_done env _ _ _ _ d
  · intro ds key h hobs
    have hu := requestToken_untouched _ _ _ _ _ _ h
    simp only [binaryKeyValueClient.ObserveKey, binaryKeyValueClient.observePath, h, hobs,
      hu.2.2, and_self]
  · intro ds h hobs
    have hu := requestToken_untouched _ _ _ _ _ _ h
    simp only [binaryKeyValueClient.Observe, binaryKeyValueClient.observePath, h, hobs,
      hu.2.2, and_self]

/-- Witness of C1: a subscription that delivers three raw messages and closes;
`ObserveKey` starts the relay, which hands over the three events in order and
closes the channel within seven steps. -/
theorem relay_delivers_in_order_witness :
    (binaryKeyValueClient.ObserveKey Mock.envFeed Mock.kvc "ds1" "temp" Mock.s0).1
      = .ret (some 0, none) ∧
    (binaryKeyValueClient.ObserveKey Mock.envFeed Mock.kvc "ds1" "temp" Mock.s0).2.relays
      = Mock.s0.relays ++ [Relay.start [[1, 65], [2, 66], [3, 67]] true] ∧
    Relay.run Mock.envFeed 7 (Relay.start [[1, 65], [2, 66], [3, 67]] true)
      = ⟨[], true, .done,
          [⟨1, "ds1", "temp", [65]⟩, ⟨2, "ds1", "temp", [66]⟩, ⟨3, "ds1", "temp", [67]⟩],
          true⟩ := by
  have h := relay_delivers_in_order Mock.envFeed Mock.kvc [[1, 65], [2, 66], [3, 67]] Mock.s0
    (requestToken Mock.envFeed (Mock.kvc.zestEndpoint ++ ("/kv/" ++ "ds1" ++ "/" ++ "temp"))
      "GET" Mock.s0).2 "secret"
  have h5 := h.2.2.2.2.1 "ds1" "temp" (Prod.ext (by decide) rfl) (by decide)
  refine ⟨h5.1, h5.2, ?_⟩
  rw [h.1 7 (by decide)]
  decide

end LibDatabox
